import Mathlib

/-!
Verification of the CarbonAgro crop-analysis core (src/CarbonAgro/main.py).

The embedding models the dataset loader column normalization, the footprint
estimator (crop filtering, base-factor cleaning and mean, the linear formula)
and the recommendation lookup. Numeric cells of the carbon_footprint column
are modelled by an inductive type with a finite rational value, positive and
negative infinity, and a missing (NaN) marker, matching what pandas can hold
in a float column. Finite numbers are modelled as rationals.
-/

namespace CarbonAgro

/-- Lower-casing of a string, character by character: the model of the Python
str.lower used by the source in column matching (df["crop"].str.lower()). -/
def strLower (s : String) : String := ⟨s.data.map Char.toLower⟩

/-- One cell of the carbon_footprint column: a finite number, one of the two
infinities, or a missing (NaN) entry. -/
inductive Cell where
  | val (q : ℚ)
  | posInf
  | negInf
  | missing
  deriving DecidableEq

/-- One row of the yield dataset: a crop name and its carbon_footprint cell. -/
structure YieldRow where
  crop : String
  cf : Cell
  deriving DecidableEq

/-- The yield dataset: whether the carbon_footprint column is present in the
schema, and the rows. -/
structure YieldTable where
  hasCF : Bool
  rows : List YieldRow
  deriving DecidableEq

/-- One row of the measures dataset. -/
structure MeasureRow where
  crop : String
  necessary_measures : String
  deriving DecidableEq

/-- A raw tabular file as loaded from disk: column names and cell values. -/
structure RawTable where
  columns : List String
  values : List (List String)
  deriving DecidableEq

/-- Column-name normalization of load_data: every column name is lower-cased
then stripped of surrounding whitespace; values are untouched. -/
def normalizeColumns (t : RawTable) : RawTable :=
  { columns := t.columns.map (fun c => (strLower c).trim), values := t.values }

/-- load_data: reads the two datasets and standardizes their column names. -/
def load_data (dfRaw measuresRaw : RawTable) : RawTable × RawTable :=
  (normalizeColumns dfRaw, normalizeColumns measuresRaw)

/-- crop_data: the rows of the yield table whose crop matches the selected
crop case-insensitively (df[df["crop"].str.lower() == selected_crop.lower()]). -/
def crop_data (rows : List YieldRow) (selected_crop : String) : List YieldRow :=
  rows.filter (fun r => strLower r.crop == strLower selected_crop)

/-- The replace step of the source: both infinities become NaN (missing). -/
def replaceInfWithNan (c : Cell) : Cell :=
  match c with
  | .posInf => .missing
  | .negInf => .missing
  | c => c

/-- The dropna step: keep only the finite values of a column. -/
def dropna (cells : List Cell) : List ℚ :=
  cells.filterMap (fun c =>
    match c with
    | .val q => some q
    | _ => none)

/-- The pandas mean of a numeric series: NaN (none) on an empty series,
otherwise the arithmetic mean. -/
def seriesMean (l : List ℚ) : Option ℚ :=
  if l.isEmpty then none else some (l.sum / l.length)

/-- base_factor: if the carbon_footprint column exists, replace infinities
with NaN, drop missing values, take the mean; fall back to 1.0 when the mean
is NaN or non-positive, or when the column is absent. -/
def base_factor (t : YieldTable) (selected_crop : String) : ℚ :=
  if t.hasCF then
    match seriesMean (dropna (((crop_data t.rows selected_crop).map YieldRow.cf).map
        replaceInfWithNan)) with
    | none => 1
    | some m => if m ≤ 0 then 1 else m
  else 1

/-- The fertilizer emission factor constant of the source (0.002). -/
def fertilizer_factor : ℚ := 2 / 1000

/-- The pesticide emission factor constant of the source (0.001). -/
def pesticide_factor : ℚ := 1 / 1000

/-- predicted_cf: the final footprint formula of the source. -/
def predicted_cf (t : YieldTable) (selected_crop : String)
    (area fertilizer pesticide : ℚ) : ℚ :=
  area * base_factor t selected_crop + fertilizer * fertilizer_factor
    + pesticide * pesticide_factor

/-- Outcome of the estimate operation: either the crop was not found in the
yield table (the CropNotFoundError signal, where the source displays nothing)
or a footprint value. -/
inductive EstimateResult where
  | cropNotFoundError
  | ok (footprint : ℚ)
  deriving DecidableEq

/-- estimate: filter the yield table to the requested crop; signal
CropNotFoundError when the filter is empty, otherwise return the footprint
computed by predicted_cf. -/
def estimate (t : YieldTable) (selected_crop : String)
    (area fertilizer pesticide : ℚ) : EstimateResult :=
  if (crop_data t.rows selected_crop).isEmpty then .cropNotFoundError
  else .ok (predicted_cf t selected_crop area fertilizer pesticide)

/-- crop_measures: the rows of the measures table matching the selected crop
case-insensitively. -/
def crop_measures (ms : List MeasureRow) (selected_crop : String) : List MeasureRow :=
  ms.filter (fun r => strLower r.crop == strLower selected_crop)

/-- Worker of drop_duplicates: keep an element exactly when it has not been
seen before, scanning left to right. -/
def dropDupsAux (seen : List String) : List String → List String
  | [] => []
  | x :: xs => if x ∈ seen then dropDupsAux seen xs else x :: dropDupsAux (x :: seen) xs

/-- The pandas drop_duplicates on a string series: keep the first occurrence
of each value, preserving order. -/
def drop_duplicates (l : List String) : List String := dropDupsAux [] l

/-- unique_measures: the necessary_measures strings of the matching rows with
exact duplicates collapsed, in first-occurrence order. -/
def unique_measures (ms : List MeasureRow) (selected_crop : String) : List String :=
  drop_duplicates ((crop_measures ms selected_crop).map MeasureRow.necessary_measures)

/-- crop_list: the distinct values of the crop column of the yield table
(df["crop"].unique()), the options offered by the crop select box. -/
def crop_list (t : YieldTable) : List String :=
  drop_duplicates (t.rows.map YieldRow.crop)

/-- What the Crop Analysis page produces for one interaction: nothing at all
(the area guard failed), no output for an unknown crop, or a footprint
together with the deduplicated measures list. -/
inductive AnalysisOutput where
  | noAnalysis
  | noData
  | result (footprint : ℚ) (measures : List String)
  deriving DecidableEq

/-- The Crop Analysis page logic: everything is guarded by area > 0; inside,
an empty crop filter produces no output, otherwise the footprint and the
deduplicated measures are produced. -/
def cropAnalysis (t : YieldTable) (ms : List MeasureRow) (selected_crop : String)
    (area fertilizer pesticide : ℚ) : AnalysisOutput :=
  if 0 < area then
    if (crop_data t.rows selected_crop).isEmpty then .noData
    else
      .result (predicted_cf t selected_crop area fertilizer pesticide)
        (unique_measures ms selected_crop)
  else .noAnalysis

/-- Spec-side description of the cleaned carbon-footprint values of a crop:
the finite values among the case-insensitively matching rows, with
infinities and missing entries dropped. -/
def cleanedCF (rows : List YieldRow) (selected_crop : String) : List ℚ :=
  (crop_data rows selected_crop).filterMap (fun r =>
    match r.cf with
    | .val q => some q
    | _ => none)

/-- Spec-side first-occurrence deduplication: keep the head, drop all its
later duplicates, recurse on the rest. -/
def specDedup : List String → List String
  | [] => []
  | x :: xs => x :: specDedup (xs.filter (fun y => y ≠ x))
  termination_by l => l.length
  decreasing_by exact Nat.lt_succ_of_le (List.length_filter_le _ _)

/-- The yield table of the worked example in the spec: a single row for Rice
with carbon_footprint 2.0. -/
def riceTable : YieldTable := ⟨true, [⟨"Rice", Cell.val 2⟩]⟩

/-- The measures table of the worked example in the spec: two identical
Wheat rows and one further Wheat row. -/
def wheatMeasures : List MeasureRow :=
  [⟨"Wheat", "Use drip irrigation"⟩, ⟨"Wheat", "Use drip irrigation"⟩,
   ⟨"Wheat", "Rotate crops"⟩]

/-- The replace-then-dropna pipeline over the filtered rows extracts exactly
the finite carbon-footprint values. -/
lemma dropna_replace_eq (l : List YieldRow) :
    dropna ((l.map YieldRow.cf).map replaceInfWithNan)
      = l.filterMap (fun r =>
          match r.cf with
          | .val q => some q
          | _ => none) := by
  induction l with
  | nil => rfl
  | cons r rs ih =>
    cases h : r.cf <;>
      simp [dropna, replaceInfWithNan, h, List.filterMap_cons] at ih ⊢ <;>
      exact ih

/-- base_factor in one shot: the mean of the cleaned values, with 1 as the
fallback when the column is absent, the cleaned values are empty, or the
mean is non-positive. -/
lemma base_factor_eq (t : YieldTable) (c : String) :
    base_factor t c =
      if t.hasCF = false ∨ cleanedCF t.rows c = []
          ∨ (cleanedCF t.rows c).sum / ((cleanedCF t.rows c).length : ℚ) ≤ 0
      then 1
      else (cleanedCF t.rows c).sum / ((cleanedCF t.rows c).length : ℚ) := by
  have hfold : dropna (((crop_data t.rows c).map YieldRow.cf).map replaceInfWithNan)
      = cleanedCF t.rows c := dropna_replace_eq (crop_data t.rows c)
  unfold base_factor
  rw [hfold]
  cases t.hasCF with
  | false => simp
  | true =>
    simp only [if_true]
    rcases h : cleanedCF t.rows c with _ | ⟨q, l⟩
    · simp [seriesMean]
    · simp only [seriesMean, List.isEmpty_cons, Bool.false_eq_true, if_false,
        Bool.true_eq_false, List.cons_ne_self, false_or]
      by_cases hm : (q :: l).sum / (((q :: l).length : ℕ) : ℚ) ≤ 0 <;> simp [hm]

/-- base_factor is strictly positive. -/
lemma base_factor_pos (t : YieldTable) (c : String) : 0 < base_factor t c := by
  rw [base_factor_eq]
  split
  · norm_num
  · rename_i h
    push_neg at h
    exact h.2.2

/-- Membership in the dedup worker: an element appears in the output exactly
when it appears in the input and was not already seen. -/
lemma mem_dropDupsAux (x : String) :
    ∀ (l seen : List String), x ∈ dropDupsAux seen l ↔ x ∈ l ∧ x ∉ seen := by
  intro l
  induction l with
  | nil => intro seen; simp [dropDupsAux]
  | cons y ys ih =>
    intro seen
    by_cases hy : y ∈ seen
    · rw [dropDupsAux, if_pos hy, ih]
      simp only [List.mem_cons]
      constructor
      · rintro ⟨h1, h2⟩; exact ⟨Or.inr h1, h2⟩
      · rintro ⟨rfl | h1, h2⟩
        · exact absurd hy h2
        · exact ⟨h1, h2⟩
    · rw [dropDupsAux, if_neg hy]
      simp only [List.mem_cons, ih]
      constructor
      · rintro (rfl | ⟨h1, h2⟩)
        · exact ⟨Or.inl rfl, hy⟩
        · exact ⟨Or.inr h1, fun hs => h2 (Or.inr hs)⟩
      · rintro ⟨rfl | h1, h2⟩
        · exact Or.inl rfl
        · rcases eq_or_ne x y with rfl | hne
          · exact Or.inl rfl
          · exact Or.inr ⟨h1, fun hs => hs.elim hne h2⟩

/-- The dedup worker never outputs a duplicate. -/
lemma nodup_dropDupsAux : ∀ (l seen : List String), (dropDupsAux seen l).Nodup := by
  intro l
  induction l with
  | nil => intro seen; simp [dropDupsAux]
  | cons y ys ih =>
    intro seen
    by_cases hy : y ∈ seen
    · rw [dropDupsAux, if_pos hy]; exact ih seen
    · rw [dropDupsAux, if_neg hy]
      refine List.nodup_cons.mpr ⟨fun hmem => ?_, ih (y :: seen)⟩
      exact ((mem_dropDupsAux y ys (y :: seen)).mp hmem).2 (List.mem_cons_self _ _)

/-- The dedup worker depends on the seen list only through membership. -/
lemma dropDupsAux_congr : ∀ (l s₁ s₂ : List String),
    (∀ a, a ∈ s₁ ↔ a ∈ s₂) → dropDupsAux s₁ l = dropDupsAux s₂ l := by
  intro l
  induction l with
  | nil => intro s₁ s₂ _; rfl
  | cons y ys ih =>
    intro s₁ s₂ h
    by_cases hy : y ∈ s₁
    · rw [dropDupsAux, if_pos hy, dropDupsAux, if_pos ((h y).mp hy)]
      exact ih s₁ s₂ h
    · rw [dropDupsAux, if_neg hy, dropDupsAux, if_neg (fun hh => hy ((h y).mpr hh))]
      refine congrArg (List.cons y) (ih _ _ ?_)
      intro a
      simp only [List.mem_cons, h a]

/-- Marking the head as seen is the same as filtering its duplicates away. -/
lemma dropDupsAux_cons_filter : ∀ (ys seen : List String) (x : String),
    dropDupsAux (x :: seen) ys = dropDupsAux seen (ys.filter (fun y => y ≠ x)) := by
  intro ys
  induction ys with
  | nil => intro seen x; rfl
  | cons y ys ih =>
    intro seen x
    rcases eq_or_ne y x with rfl | hne
    · rw [dropDupsAux, if_pos (List.mem_cons_self y seen),
        List.filter_cons_of_neg (by simp)]
      exact ih seen y
    · by_cases hy : y ∈ seen
      · rw [dropDupsAux, if_pos (List.mem_cons_of_mem x hy),
          List.filter_cons_of_pos (by simp [hne]), dropDupsAux, if_pos hy]
        exact ih seen x
      · have h1 : y ∉ x :: seen := by simp [List.mem_cons, hne, hy]
        rw [dropDupsAux, if_neg h1, List.filter_cons_of_pos (by simp [hne]),
          dropDupsAux, if_neg hy]
        refine congrArg (List.cons y) ?_
        calc dropDupsAux (y :: x :: seen) ys
            = dropDupsAux (x :: y :: seen) ys := by
              refine dropDupsAux_congr ys _ _ (fun a => ?_)
              simp only [List.mem_cons]
              tauto
          _ = dropDupsAux (y :: seen) (ys.filter (fun z => z ≠ x)) := ih (y :: seen) x

/-- drop_duplicates implements the spec-side first-occurrence dedup. -/
lemma drop_duplicates_eq_specDedup : ∀ l : List String, drop_duplicates l = specDedup l := by
  intro l
  induction l using specDedup.induct with
  | case1 =>
    rw [specDedup]
    rfl
  | case2 x xs ih =>
    rw [specDedup, drop_duplicates, dropDupsAux, if_neg (List.not_mem_nil x),
      dropDupsAux_cons_filter xs [] x]
    exact congrArg (List.cons x) ih

/-- drop_duplicates keeps exactly the elements of its input. -/
lemma mem_drop_duplicates (x : String) (l : List String) :
    x ∈ drop_duplicates l ↔ x ∈ l := by
  rw [drop_duplicates, mem_dropDupsAux]
  simp

/-- drop_duplicates outputs no duplicate. -/
lemma drop_duplicates_nodup (l : List String) : (drop_duplicates l).Nodup :=
  nodup_dropDupsAux l []

/-- drop_duplicates is empty exactly on the empty list. -/
lemma drop_duplicates_eq_nil (l : List String) :
    drop_duplicates l = [] ↔ l = [] := by
  cases l with
  | nil => simp [drop_duplicates, dropDupsAux]
  | cons x xs => simp [drop_duplicates, dropDupsAux]

/-- The yield filter only looks at the lower-cased selected crop. -/
lemma crop_data_congr (rows : List YieldRow) (c₁ c₂ : String)
    (h : strLower c₁ = strLower c₂) :
    crop_data rows c₁ = crop_data rows c₂ := by
  unfold crop_data
  rw [h]

/-- The measures filter only looks at the lower-cased selected crop. -/
lemma crop_measures_congr (ms : List MeasureRow) (c₁ c₂ : String)
    (h : strLower c₁ = strLower c₂) :
    crop_measures ms c₁ = crop_measures ms c₂ := by
  unfold crop_measures
  rw [h]

/-- The Rice filter of the example table keeps its single row. -/
lemma crop_data_rice : crop_data riceTable.rows "Rice" = [⟨"Rice", Cell.val 2⟩] := by
  decide

/-- The cleaned footprint values of the example table. -/
lemma cleanedCF_rice : cleanedCF riceTable.rows "Rice" = [(2 : ℚ)] := by
  decide

/-- The base factor of the worked example is 2. -/
lemma base_factor_rice : base_factor riceTable "Rice" = 2 := by
  rw [base_factor_eq, cleanedCF_rice]
  norm_num [riceTable]

/-- estimate on the example table, for arbitrary numeric inputs. -/
lemma estimate_rice_val (area fertilizer pesticide : ℚ) :
    estimate riceTable "Rice" area fertilizer pesticide
      = .ok (area * 2 + fertilizer * (2 / 1000) + pesticide * (1 / 1000)) := by
  have h : (crop_data riceTable.rows "Rice").isEmpty = false := by decide
  simp [estimate, predicted_cf, h, base_factor_rice, fertilizer_factor, pesticide_factor]

/-- Claim C1: for every yield table, crop and inputs with a non-empty crop
filter, the estimated footprint equals area times base_factor plus
fertilizer times 0.002 plus pesticide times 0.001; on the worked example
(one Rice row with carbon_footprint 2.0, area 10, fertilizer 50,
pesticide 20) the base factor is 2.0 and the footprint is 20.12. -/
theorem C1_estimate_linear_formula :
    (∀ (t : YieldTable) (c : String) (area fertilizer pesticide : ℚ),
        (crop_data t.rows c).isEmpty = false →
        estimate t c area fertilizer pesticide
          = .ok (area * base_factor t c + fertilizer * fertilizer_factor
              + pesticide * pesticide_factor))
    ∧ fertilizer_factor = 2 / 1000
    ∧ pesticide_factor = 1 / 1000
    ∧ base_factor riceTable "Rice" = 2
    ∧ estimate riceTable "Rice" 10 50 20 = .ok (2012 / 100) := by
  refine ⟨fun t c area fertilizer pesticide h => ?_, rfl, rfl, base_factor_rice, ?_⟩
  · simp [estimate, predicted_cf, h]
  · rw [estimate_rice_val]
    norm_num

/-- Witness for C1 at the Rice example. -/
theorem C1_estimate_linear_formula_witness :
    (crop_data riceTable.rows "Rice").isEmpty = false ∧
    estimate riceTable "Rice" 10 50 20
      = .ok (10 * base_factor riceTable "Rice" + 50 * fertilizer_factor
          + 20 * pesticide_factor) :=
  ⟨by decide, C1_estimate_linear_formula.1 riceTable "Rice" 10 50 20 (by decide)⟩

/-- Claim C2: base_factor filters the rows to the crop case-insensitively,
replaces infinities by missing, drops missing values and takes the mean;
it is 1.0 when the column is absent, the cleaned values are empty or the
mean is non-positive, and the mean otherwise. -/
theorem C2_base_factor_spec (t : YieldTable) (c : String) :
    base_factor t c =
      if t.hasCF = false ∨ cleanedCF t.rows c = []
          ∨ (cleanedCF t.rows c).sum / ((cleanedCF t.rows c).length : ℚ) ≤ 0
      then 1
      else (cleanedCF t.rows c).sum / ((cleanedCF t.rows c).length : ℚ) :=
  base_factor_eq t c

/-- Claim C3: when the case-insensitive crop filter is empty, estimate
signals CropNotFoundError and returns no footprint value. -/
theorem C3_crop_not_found (t : YieldTable) (c : String)
    (area fertilizer pesticide : ℚ) (h : crop_data t.rows c = []) :
    estimate t c area fertilizer pesticide = .cropNotFoundError ∧
    ∀ v : ℚ, estimate t c area fertilizer pesticide ≠ .ok v := by
  have he : estimate t c area fertilizer pesticide = .cropNotFoundError := by
    simp [estimate, h]
  exact ⟨he, fun v hv => by rw [he] at hv; exact EstimateResult.noConfusion hv⟩

/-- Witness for C3 on a crop absent from the example table. -/
theorem C3_crop_not_found_witness :
    crop_data riceTable.rows "Maize" = [] ∧
    estimate riceTable "Maize" 10 50 20 = .cropNotFoundError :=
  ⟨by decide, (C3_crop_not_found riceTable "Maize" 10 50 20 (by decide)).1⟩

/-- Claim C4: the recommendations of a crop are the necessary_measures
strings of the matching rows with exact duplicates collapsed in
first-occurrence order, hence without repeated strings; the result is empty
exactly when no row matches; and the worked Wheat example deduplicates as
the spec states. -/
theorem C4_recommendations (ms : List MeasureRow) (c : String) :
    unique_measures ms c
        = specDedup ((crop_measures ms c).map MeasureRow.necessary_measures)
    ∧ (unique_measures ms c).Nodup
    ∧ (unique_measures ms c = [] ↔ crop_measures ms c = [])
    ∧ unique_measures wheatMeasures "Wheat"
        = ["Use drip irrigation", "Rotate crops"] := by
  refine ⟨drop_duplicates_eq_specDedup _, drop_duplicates_nodup _, ?_, by decide⟩
  rw [unique_measures, drop_duplicates_eq_nil, List.map_eq_nil_iff]

/-- Claim C5: two crop strings with the same lower-casing give identical
estimate and recommendation results. -/
theorem C5_case_insensitive (t : YieldTable) (ms : List MeasureRow)
    (c₁ c₂ : String) (area fertilizer pesticide : ℚ)
    (h : strLower c₁ = strLower c₂) :
    estimate t c₁ area fertilizer pesticide
        = estimate t c₂ area fertilizer pesticide ∧
    unique_measures ms c₁ = unique_measures ms c₂ := by
  have h1 := crop_data_congr t.rows c₁ c₂ h
  have h2 := crop_measures_congr ms c₁ c₂ h
  have h3 : base_factor t c₁ = base_factor t c₂ := by
    unfold base_factor
    rw [h1]
  constructor
  · unfold estimate predicted_cf
    rw [h1, h3]
  · unfold unique_measures
    rw [h2]

/-- Witness for C5 at Wheat versus wheat. -/
theorem C5_case_insensitive_witness :
    strLower "Wheat" = strLower "wheat" ∧
    (estimate riceTable "Wheat" 10 50 20 = estimate riceTable "wheat" 10 50 20 ∧
     unique_measures wheatMeasures "Wheat" = unique_measures wheatMeasures "wheat") :=
  ⟨by decide,
   C5_case_insensitive riceTable wheatMeasures "Wheat" "wheat" 10 50 20 (by decide)⟩

/-- Claim C6: for a fixed table and crop, the footprint returned by estimate
is monotonically non-decreasing in area, fertilizer and pesticide. -/
theorem C6_estimate_monotone (t : YieldTable) (c : String)
    (a a' f f' p p' v v' : ℚ)
    (ha : a ≤ a') (hf : f ≤ f') (hp : p ≤ p')
    (hv : estimate t c a f p = .ok v) (hv' : estimate t c a' f' p' = .ok v') :
    v ≤ v' := by
  unfold estimate at hv hv'
  by_cases hemp : (crop_data t.rows c).isEmpty
  · rw [if_pos hemp] at hv
    exact absurd hv (by simp)
  · rw [if_neg hemp] at hv hv'
    have h1 : predicted_cf t c a f p = v := by injection hv
    have h2 : predicted_cf t c a' f' p' = v' := by injection hv'
    rw [← h1, ← h2]
    unfold predicted_cf
    have hb := base_factor_pos t c
    have hff : (0 : ℚ) ≤ fertilizer_factor := by norm_num [fertilizer_factor]
    have hpf : (0 : ℚ) ≤ pesticide_factor := by norm_num [pesticide_factor]
    linarith [mul_le_mul_of_nonneg_right ha hb.le,
      mul_le_mul_of_nonneg_right hf hff,
      mul_le_mul_of_nonneg_right hp hpf]

/-- Witness for C6: growing the area on the Rice example grows the result. -/
theorem C6_estimate_monotone_witness :
    estimate riceTable "Rice" 1 0 0 = .ok 2 ∧
    estimate riceTable "Rice" 3 0 0 = .ok 6 ∧ (2 : ℚ) ≤ 6 := by
  have h1 : estimate riceTable "Rice" 1 0 0 = .ok 2 := by
    rw [estimate_rice_val]
    norm_num
  have h2 : estimate riceTable "Rice" 3 0 0 = .ok 6 := by
    rw [estimate_rice_val]
    norm_num
  exact ⟨h1, h2, C6_estimate_monotone riceTable "Rice" 1 3 0 0 0 0 2 6
    (by norm_num) (le_refl 0) (le_refl 0) h1 h2⟩

/-- Claim C7: base_factor is a finite positive rational, and rows whose
carbon_footprint is infinite or missing do not change it, so such values
never reach the final footprint through base_factor. -/
theorem C7_base_factor_safe (t : YieldTable) (c : String) (r : YieldRow)
    (h : r.cf = Cell.posInf ∨ r.cf = Cell.negInf ∨ r.cf = Cell.missing) :
    0 < base_factor t c ∧
    base_factor ⟨t.hasCF, r :: t.rows⟩ c = base_factor t c := by
  refine ⟨base_factor_pos t c, ?_⟩
  have hclean : cleanedCF (r :: t.rows) c = cleanedCF t.rows c := by
    unfold cleanedCF crop_data
    rw [List.filter_cons]
    by_cases hm : (strLower r.crop == strLower c) = true
    · rw [if_pos hm, List.filterMap_cons]
      rcases h with h | h | h <;> simp [h]
    · rw [if_neg hm]
  rw [base_factor_eq, base_factor_eq]
  dsimp only
  rw [hclean]

/-- Witness for C7: an added infinite Rice row leaves the base factor. -/
theorem C7_base_factor_safe_witness :
    0 < base_factor riceTable "Rice" ∧
    base_factor ⟨riceTable.hasCF, ⟨"Rice", Cell.posInf⟩ :: riceTable.rows⟩ "Rice"
      = base_factor riceTable "Rice" :=
  C7_base_factor_safe riceTable "Rice" ⟨"Rice", Cell.posInf⟩ (Or.inl rfl)

/-- Claim C8: load_data lower-cases and trims every column name of both
tables and changes nothing else: all cell values are returned unchanged. -/
theorem C8_load_data_frame (t₁ t₂ : RawTable) :
    (load_data t₁ t₂).1.values = t₁.values ∧
    (load_data t₁ t₂).2.values = t₂.values ∧
    (load_data t₁ t₂).1.columns = t₁.columns.map (fun c => (strLower c).trim) ∧
    (load_data t₁ t₂).2.columns = t₂.columns.map (fun c => (strLower c).trim) :=
  ⟨rfl, rfl, rfl, rfl⟩

/-- Claim C9: with area equal to 0 the whole analysis is skipped: no
footprint and no measures are produced for any crop or input values. -/
theorem C9_area_zero_guard (t : YieldTable) (ms : List MeasureRow) (c : String)
    (fertilizer pesticide : ℚ) :
    cropAnalysis t ms c 0 fertilizer pesticide = .noAnalysis ∧
    ∀ (fp : ℚ) (l : List String),
      cropAnalysis t ms c 0 fertilizer pesticide ≠ .result fp l := by
  have h : cropAnalysis t ms c 0 fertilizer pesticide = .noAnalysis := by
    unfold cropAnalysis
    rw [if_neg (lt_irrefl 0)]
  exact ⟨h, fun fp l hc => by rw [h] at hc; exact AnalysisOutput.noConfusion hc⟩

/-- Claim C10: a crop taken from the select-box options, the distinct values
of the crop column, always matches at least one row, so the crop-not-found
branch is unreachable from the input surface. -/
theorem C10_selected_crop_found (t : YieldTable) (c : String)
    (area fertilizer pesticide : ℚ) (h : c ∈ crop_list t) :
    crop_data t.rows c ≠ [] ∧
    estimate t c area fertilizer pesticide ≠ .cropNotFoundError := by
  have hc : c ∈ t.rows.map YieldRow.crop := (mem_drop_duplicates c _).mp h
  obtain ⟨r, hr, hrc⟩ := List.mem_map.mp hc
  have hmem : r ∈ crop_data t.rows c := by
    rw [crop_data, List.mem_filter]
    refine ⟨hr, ?_⟩
    rw [hrc]
    exact beq_self_eq_true _
  have hne : crop_data t.rows c ≠ [] := fun hnil => by
    rw [hnil] at hmem
    exact (List.not_mem_nil r) hmem
  refine ⟨hne, ?_⟩
  unfold estimate
  rw [if_neg (fun hemp => hne (List.isEmpty_iff.mp hemp))]
  exact fun hcon => EstimateResult.noConfusion hcon

/-- Witness for C10 at the Rice example. -/
theorem C10_selected_crop_found_witness :
    "Rice" ∈ crop_list riceTable ∧
    estimate riceTable "Rice" 10 50 20 ≠ .cropNotFoundError :=
  ⟨by decide, (C10_selected_crop_found riceTable "Rice" 10 50 20 (by decide)).2⟩

end CarbonAgro
